import Mathlib

/-!
Verification of the achievement lifecycle subsystem of the
Postgree-Mongodb-Swagger-Golang-Authentifikasi-School repository.

The development shallowly embeds:
  * the achievement reference store (`repository.AchievementReferenceRepository`,
    Postgres, conditional `UPDATE ... WHERE` writes);
  * the achievement content store (`repository.AchievementMongoRepository`, MongoDB);
  * the role/scope resolver (`allowedStatusesByRole`, `resolveRoleName`);
  * the lifecycle coordinator services (`CreateAchievementService`,
    `ReviewAchievementService`, `HardDeleteAchievementService`, and the listing join
    of `GetAchievementsService`).

Conventions of the embedding:
  * UUIDs are modelled as `Nat` (opaque identities with decidable equality);
    reference-row ids and Mongo ObjectIDs stay `String` as in the source.
  * `NOW()` is modelled by an explicit `now : Nat` argument.
  * Go's `strings.TrimSpace`, `strings.ToLower`, `strings.Contains` are modelled
    by the executable `trimSpace`, `toLowerStr`, `containsSub` below.
  * A SQL conditional update is modelled by `updateWhere`, which applies the row
    function to every row matching the predicate and reports the affected count.
  * Each coordinator service returns, besides its outcome and the new store
    states, the ordered trace of repository operations it performed
    (`StoreOp`), so ordering and before-any-write properties are statable.
-/

set_option maxHeartbeats 1000000

namespace SchoolAchievement

/-- Go `strings.TrimSpace` (ASCII whitespace suffices for the values in play). -/
def trimSpace (s : String) : String :=
  ⟨((s.data.dropWhile Char.isWhitespace).reverse.dropWhile Char.isWhitespace).reverse⟩

/-- Go `strings.ToLower`. -/
def toLowerStr (s : String) : String := ⟨s.data.map Char.toLower⟩

/-- Helper for substring search over character lists. -/
def subOccursAux (pat : List Char) : List Char → Bool
  | [] => pat.isEmpty
  | c :: rest => pat.isPrefixOf (c :: rest) || subOccursAux pat rest

/-- Go `strings.Contains s pat`. -/
def containsSub (s pat : String) : Bool := subOccursAux pat.data s.data

/-! ## Status constants (`app/model`, part_000) -/

def AchievementStatusDraft : String := "draft"

def AchievementStatusSubmitted : String := "submitted"

def AchievementStatusVerified : String := "verified"

def AchievementStatusRejected : String := "rejected"

def AchievementStatusDeleted : String := "deleted"

/-! ## Data model (`app/model`) -/

/-- `model.AchievementReference`: the authoritative Postgres reference row. -/
structure AchievementReference where
  id : String
  studentId : Nat
  mongoAchievementId : String
  status : String
  submittedAt : Option Nat
  verifiedAt : Option Nat
  verifiedBy : Option Nat
  rejectionNote : Option String
  createdAt : Nat
  updatedAt : Nat
deriving Repr, DecidableEq

abbrev RefDB := List AchievementReference

/-- Values inside the dynamic `details` map of an achievement (Go JSON values:
numbers arrive as float64 from JSON, strings, anything else). -/
inductive DetailVal
  | num (n : Int)
  | str (s : String)
  | other
deriving Repr, DecidableEq

/-- `model.Achievement`: the MongoDB content document (fields relevant to the
lifecycle: identity, owner, normalized text fields, details). -/
structure Achievement where
  id : String
  studentId : Nat
  achievementType : String
  title : String
  description : String
  details : List (String × DetailVal)
  createdAt : Nat
  updatedAt : Nat
deriving Repr, DecidableEq

abbrev ContentDB := List Achievement

/-- `model.UpdateAchievementStatusRequest`. -/
structure UpdateAchievementStatusRequest where
  status : String
  rejectionNote : Option String
deriving Repr, DecidableEq

/-- `model.CreateAchievementRequest` (lifecycle-relevant fields). -/
structure CreateAchievementRequest where
  achievementType : String
  title : String
  description : String
  details : List (String × DetailVal)
deriving Repr, DecidableEq

/-- `model.Role`. -/
structure Role where
  id : String
  name : String
deriving Repr, DecidableEq

/-- `model.Student` (lifecycle-relevant fields: primary key and advisor). -/
structure Student where
  id : Nat
  userId : Nat
  advisorId : Option Nat
deriving Repr, DecidableEq

/-- `model.Lecturer` (lifecycle-relevant fields). -/
structure Lecturer where
  id : Nat
  userId : Nat
deriving Repr, DecidableEq

/-! ## Reference store (`repository/achievement_repository`, part_003) -/

/-- SQL `UPDATE ... SET f ... WHERE p`: every matching row is rewritten by `f`;
the second component is the affected-row count reported by the driver. -/
def updateWhere (p : AchievementReference → Bool)
    (f : AchievementReference → AchievementReference) (db : RefDB) :
    RefDB × Nat :=
  (db.map (fun r => if p r then f r else r), db.countP p)

namespace RefRepo

/-- `CreateDraft`: INSERT (student_id, mongo_achievement_id, status='draft');
all other columns take their defaults (NULL timestamps/note, created/updated now).
The store-assigned id is passed in as `newID`. -/
def CreateDraft (db : RefDB) (studentID : Nat) (mongoID : String) (newID : String)
    (now : Nat) : RefDB × String :=
  (db ++ [{ id := newID, studentId := studentID, mongoAchievementId := mongoID,
            status := AchievementStatusDraft, submittedAt := none, verifiedAt := none,
            verifiedBy := none, rejectionNote := none, createdAt := now, updatedAt := now }],
   newID)

/-- `SubmitDraft`: UPDATE to `submitted` WHERE id AND student_id AND status='draft';
zero rows affected yields the guard-failure error. -/
def SubmitDraft (db : RefDB) (refID : String) (studentID : Nat) (now : Nat) :
    RefDB × Except String Unit :=
  let res := updateWhere
    (fun r => r.id == refID && r.studentId == studentID && r.status == AchievementStatusDraft)
    (fun r => { r with status := AchievementStatusSubmitted, submittedAt := some now,
                       updatedAt := now })
    db
  (res.1,
   if res.2 == 0 then
     .error "achievement tidak ditemukan atau bukan milik anda atau status bukan draft"
   else .ok ())

/-- The rejection-note value stored by `Review` (Go: non-nil, trimmed, non-empty
note only when the new status is `rejected`; NULL otherwise). -/
def reviewNoteValue (status : String) (note : Option String) : Option String :=
  if status == AchievementStatusRejected then
    match note with
    | some n => if trimSpace n == "" then none else some (trimSpace n)
    | none => none
  else
    none

/-- `Review`: normalizes the status, accepts only verified/rejected, then a single
conditional UPDATE WHERE id AND status='submitted' setting status, verified_at,
verified_by, rejection_note. -/
def Review (db : RefDB) (refID : String) (status : String) (adminID : Nat)
    (note : Option String) (now : Nat) : RefDB × Except String Unit :=
  let status := toLowerStr (trimSpace status)
  if status != AchievementStatusVerified && status != AchievementStatusRejected then
    (db, .error "status review tidak valid")
  else
    let res := updateWhere
      (fun r => r.id == refID && r.status == AchievementStatusSubmitted)
      (fun r => { r with status := status, verifiedAt := some now,
                         verifiedBy := some adminID,
                         rejectionNote := reviewNoteValue status note,
                         updatedAt := now })
      db
    (res.1,
     if res.2 == 0 then .error "achievement tidak ditemukan atau status bukan submitted"
     else .ok ())

/-- Admin `Delete` (soft delete): UPDATE to `deleted` WHERE id AND status<>'deleted';
sets verified_at/verified_by to the admin and clears rejection_note. -/
def Delete (db : RefDB) (refID : String) (adminID : Nat) (now : Nat) :
    RefDB × Except String Unit :=
  let res := updateWhere
    (fun r => r.id == refID && r.status != AchievementStatusDeleted)
    (fun r => { r with status := AchievementStatusDeleted, verifiedAt := some now,
                       verifiedBy := some adminID, rejectionNote := none,
                       updatedAt := now })
    db
  (res.1,
   if res.2 == 0 then .error "achievement tidak ditemukan atau sudah berstatus deleted"
   else .ok ())

/-- Student `DeleteByStudent` (soft delete of an own draft): UPDATE to `deleted`
WHERE id AND student_id AND status='draft'; verified_by is set to NULL. -/
def DeleteByStudent (db : RefDB) (refID : String) (studentID : Nat) (now : Nat) :
    RefDB × Except String Unit :=
  let res := updateWhere
    (fun r => r.id == refID && r.studentId == studentID && r.status == AchievementStatusDraft)
    (fun r => { r with status := AchievementStatusDeleted, verifiedAt := some now,
                       verifiedBy := none, rejectionNote := none, updatedAt := now })
    db
  (res.1,
   if res.2 == 0 then
     .error "achievement tidak ditemukan atau bukan milik anda atau status bukan draft"
   else .ok ())

/-- `HardDelete`: DELETE FROM achievement_references WHERE id AND status='deleted'. -/
def HardDelete (db : RefDB) (refID : String) : RefDB × Except String Unit :=
  let matched := db.countP (fun r => r.id == refID && r.status == AchievementStatusDeleted)
  let db2 := db.filter (fun r => !(r.id == refID && r.status == AchievementStatusDeleted))
  (db2,
   if matched == 0 then
     .error "achievement reference tidak ditemukan atau status bukan deleted"
   else .ok ())

/-- `GetByID`: SELECT one row by id. -/
def GetByID (db : RefDB) (id : String) : Except String AchievementReference :=
  match db.find? (fun r => r.id == id) with
  | some r => .ok r
  | none => .error "achievement reference tidak ditemukan"

/-- Insertion step for the `ORDER BY created_at DESC` of the listing queries. -/
def insertByCreatedDesc (r : AchievementReference) :
    List AchievementReference → List AchievementReference
  | [] => [r]
  | x :: xs => if x.createdAt ≤ r.createdAt then r :: x :: xs else x :: insertByCreatedDesc r xs

/-- `ORDER BY created_at DESC` (modelled by insertion sort on `createdAt`). -/
def sortByCreatedDesc (l : List AchievementReference) : List AchievementReference :=
  l.foldr insertByCreatedDesc []

/-- The WHERE clause of `ListByStatuses`: status ∈ statuses, optional owner
filter, optional advisor filter via the join against `students`. -/
def listByStatusesPred (statuses : List String) (studentID : Option Nat)
    (advisorID : Option Nat) (students : List Student)
    (r : AchievementReference) : Bool :=
  statuses.contains r.status
    && (match studentID with
        | some sid => r.studentId == sid
        | none => true)
    && (match advisorID with
        | some aid => students.any (fun s => s.id == r.studentId && s.advisorId == some aid)
        | none => true)

/-- `ListByStatuses`: filtered SELECT, ordered by created_at DESC, paginated,
together with the total count of matching rows. -/
def ListByStatuses (db : RefDB) (statuses : List String) (studentID : Option Nat)
    (advisorID : Option Nat) (students : List Student) (page limit : Int) :
    List AchievementReference × Int :=
  let page := if page < 1 then 1 else page
  let limit := if limit < 1 then 10 else limit
  let offset := (page - 1) * limit
  let matched := db.filter (listByStatusesPred statuses studentID advisorID students)
  let total := (matched.length : Int)
  let ordered := sortByCreatedDesc matched
  ((ordered.drop offset.toNat).take limit.toNat, total)

end RefRepo

/-! ## Content store (`repository/achievement_repository`, part_003, Mongo side) -/

/-- `bson.ObjectIDFromHex` succeeds exactly on 24 hex characters. -/
def isValidObjectId (s : String) : Bool :=
  s.length == 24 && s.data.all (fun c => c.isDigit || ('a' ≤ c && c ≤ 'f') || ('A' ≤ c && c ≤ 'F'))

namespace MongoRepo

/-- Mongo `Create`: normalizes type/title/description and inserts the document;
the store-assigned ObjectID is passed in as `newID`. -/
def Create (store : ContentDB) (studentID : Nat) (req : CreateAchievementRequest)
    (newID : String) (now : Nat) : ContentDB × String :=
  (store ++ [{ id := newID, studentId := studentID,
               achievementType := toLowerStr (trimSpace req.achievementType),
               title := trimSpace req.title, description := trimSpace req.description,
               details := req.details, createdAt := now, updatedAt := now }],
   newID)

/-- `GetByIDs`: keeps only the ids that parse as ObjectIDs, then `$in`-fetches;
identifiers that do not resolve are silently omitted, no error for partial hits. -/
def GetByIDs (store : ContentDB) (ids : List String) : ContentDB :=
  if ids.isEmpty then []
  else
    let objectIDs := ids.filter isValidObjectId
    if objectIDs.isEmpty then []
    else store.filter (fun a => objectIDs.contains a.id)

/-- Mongo `Delete`: fails on a malformed id; `DeleteOne` by `_id`; reports
not-found when nothing was deleted. -/
def Delete (store : ContentDB) (id : String) : ContentDB × Except String Unit :=
  if !isValidObjectId id then
    (store, .error "invalid mongo achievement id")
  else
    let matched := store.countP (fun a => a.id == id)
    let store2 := store.filter (fun a => !(a.id == id))
    (store2,
     if matched == 0 then .error "achievement mongo tidak ditemukan" else .ok ())

end MongoRepo

/-! ## Service layer (`app/service/achievement_service`, part_005) -/

/-- The repository operations a coordinator service may perform, in order. -/
inductive StoreOp
  | roleRead
  | studentRead
  | lecturerRead
  | refRead
  | refWrite
  | contentRead
  | contentWrite
  | contentDelete
deriving Repr, DecidableEq

/-- HTTP-level outcome of a coordinator service. -/
inductive ServiceOutcome
  | ok (msg : String)
  | badRequest (msg : String)
  | unauthorized (msg : String)
  | forbidden (msg : String)
  | notFound (msg : String)
  | serverError (msg : String)
deriving Repr, DecidableEq

/-- Error translation used by the services: messages containing
"tidak ditemukan" become 404, the rest 400 (Go lowercases the message first). -/
def mapRefError (msg : String) : ServiceOutcome :=
  if containsSub (toLowerStr msg) "tidak ditemukan" then .notFound msg else .badRequest msg

/-- Go `req.RejectionNote == nil || strings.TrimSpace(*req.RejectionNote) == ""`. -/
def noteMissing : Option String → Bool
  | none => true
  | some n => trimSpace n == ""

/-- `resolveRoleName`: reads the `role_id` local; when present and non-blank it
reads the role store (`GetRoleByID`) and returns the lowercased trimmed role
name. The first component is the trace of store reads performed. -/
def resolveRoleName (roleIdLocal : Option String) (roles : List Role) :
    List StoreOp × Except String String :=
  match roleIdLocal with
  | none => ([], .error "role tidak ditemukan")
  | some rid =>
    if trimSpace rid == "" then ([], .error "role tidak ditemukan")
    else
      match roles.find? (fun r => r.id == rid) with
      | none => ([StoreOp.roleRead], .error "role tidak ditemukan")
      | some role => ([StoreOp.roleRead], .ok (toLowerStr (trimSpace role.name)))

/-- Request context shared by the review service: locals plus the collaborator
stores it may read. -/
structure ReviewEnv where
  roleIdLocal : Option String
  userIdLocal : Option Nat
  roles : List Role
  lecturers : List Lecturer
  students : List Student
deriving Repr, DecidableEq

/-- Result of `ReviewAchievementService`: new reference table, outcome, and the
ordered trace of repository operations performed. -/
structure ReviewResult where
  refs : RefDB
  outcome : ServiceOutcome
  ops : List StoreOp
deriving Repr, DecidableEq

/-- `ReviewAchievementService` (part_005, lines 389-533): trims the path id,
normalizes the requested status, resolves the role, checks the actor, and then
per role validates the note/status and performs the guarded store transition;
the advisor (dosen wali) branch re-checks target status and the advisor-of
relationship before calling `Review`. -/
def ReviewAchievementService (env : ReviewEnv) (refIDParam : String)
    (req : UpdateAchievementStatusRequest) (db : RefDB) (now : Nat) : ReviewResult :=
  let refID := trimSpace refIDParam
  if refID == "" then ⟨db, .badRequest "ID reference harus diisi", []⟩
  else
    let status := toLowerStr (trimSpace req.status)
    let roleOps := (resolveRoleName env.roleIdLocal env.roles).1
    match (resolveRoleName env.roleIdLocal env.roles).2 with
    | .error e => ⟨db, .forbidden e, roleOps⟩
    | .ok roleName =>
      match env.userIdLocal with
      | none => ⟨db, .unauthorized "Unauthorized", roleOps⟩
      | some actorID =>
        if roleName == "admin" then
          if status == AchievementStatusRejected && noteMissing req.rejectionNote then
            ⟨db, .badRequest "rejection_note wajib diisi jika status rejected", roleOps⟩
          else if status != AchievementStatusVerified && status != AchievementStatusRejected then
            ⟨db, .badRequest "Status harus verified/rejected", roleOps⟩
          else
            let res := RefRepo.Review db refID status actorID req.rejectionNote now
            match res.2 with
            | .error msg => ⟨res.1, mapRefError msg, roleOps ++ [.refWrite]⟩
            | .ok _ => ⟨res.1, .ok "Status achievement berhasil diupdate", roleOps ++ [.refWrite]⟩
        else if roleName == "dosen wali" then
          if status == AchievementStatusRejected && noteMissing req.rejectionNote then
            ⟨db, .badRequest "rejection_note wajib diisi jika status rejected", roleOps⟩
          else if status != AchievementStatusVerified && status != AchievementStatusRejected then
            ⟨db, .badRequest "Status harus verified/rejected", roleOps⟩
          else
            match RefRepo.GetByID db refID with
            | .error e => ⟨db, .notFound e, roleOps ++ [.refRead]⟩
            | .ok ref =>
              if ref.status != AchievementStatusSubmitted then
                ⟨db, .badRequest "Hanya boleh memproses status submitted", roleOps ++ [.refRead]⟩
              else
                match env.lecturers.find? (fun l => l.userId == actorID) with
                | none => ⟨db, .forbidden "Dosen wali tidak ditemukan",
                           roleOps ++ [.refRead, .lecturerRead]⟩
                | some lect =>
                  match env.students.find? (fun s => s.id == ref.studentId) with
                  | none => ⟨db, .forbidden "Tidak berhak memproses mahasiswa ini",
                             roleOps ++ [.refRead, .lecturerRead, .studentRead]⟩
                  | some st =>
                    if st.advisorId != some lect.id then
                      ⟨db, .forbidden "Tidak berhak memproses mahasiswa ini",
                       roleOps ++ [.refRead, .lecturerRead, .studentRead]⟩
                    else
                      let res := RefRepo.Review db refID status actorID req.rejectionNote now
                      match res.2 with
                      | .error msg => ⟨res.1, mapRefError msg,
                                       roleOps ++ [.refRead, .lecturerRead, .studentRead, .refWrite]⟩
                      | .ok _ => ⟨res.1, .ok "Status achievement berhasil diupdate",
                                  roleOps ++ [.refRead, .lecturerRead, .studentRead, .refWrite]⟩
        else
          ⟨db, .forbidden "Role tidak diperbolehkan untuk aksi ini", roleOps⟩

/-- Result of `HardDeleteAchievementService`. -/
structure HardDeleteResult where
  refs : RefDB
  contents : ContentDB
  outcome : ServiceOutcome
  ops : List StoreOp
deriving Repr, DecidableEq

/-- `HardDeleteAchievementService` (part_005, lines 615-673): reads the
reference; only status `deleted` may proceed; deletes the Mongo content first,
then hard-deletes the reference row; a content-delete failure returns before
any reference write. -/
def HardDeleteAchievementService (refIDParam : String) (db : RefDB)
    (store : ContentDB) : HardDeleteResult :=
  let refID := trimSpace refIDParam
  if refID == "" then ⟨db, store, .badRequest "ID reference harus diisi", []⟩
  else
    match RefRepo.GetByID db refID with
    | .error _ => ⟨db, store, .notFound "achievement reference tidak ditemukan", [.refRead]⟩
    | .ok ref =>
      if ref.status != AchievementStatusDeleted then
        ⟨db, store, .badRequest "Hard delete hanya boleh untuk status deleted", [.refRead]⟩
      else
        let mres := MongoRepo.Delete store ref.mongoAchievementId
        match mres.2 with
        | .error msg => ⟨db, mres.1, mapRefError msg, [.refRead, .contentDelete]⟩
        | .ok _ =>
          let hres := RefRepo.HardDelete db refID
          match hres.2 with
          | .error msg => ⟨hres.1, mres.1, mapRefError msg, [.refRead, .contentDelete, .refWrite]⟩
          | .ok _ => ⟨hres.1, mres.1, .ok "Achievement dihapus permanen",
                      [.refRead, .contentDelete, .refWrite]⟩

/-- Replace the value stored under key `k` (Go map assignment on the clone). -/
def setKey (k : String) (v : DetailVal) (l : List (String × DetailVal)) :
    List (String × DetailVal) :=
  l.map (fun kv => if kv.1 == k then (kv.1, v) else kv)

/-- `normalizeDetails` (part_005, lines 109-138): for `competition`, `rank` must
be numeric (JSON floats are coerced to int; the model already carries ints) and
a string `competitionLevel` is lowercased/trimmed. -/
def normalizeDetails (achType : String) (details : List (String × DetailVal)) :
    Except String (List (String × DetailVal)) :=
  let t := toLowerStr (trimSpace achType)
  if t == "competition" then
    match details.lookup "rank" with
    | some (DetailVal.num n) =>
      let d2 := setKey "rank" (DetailVal.num n) details
      match d2.lookup "competitionLevel" with
      | some (DetailVal.str s) =>
        .ok (setKey "competitionLevel" (DetailVal.str (toLowerStr (trimSpace s))) d2)
      | _ => .ok d2
    | some _ => .error "rank harus numerik (int)"
    | none =>
      match details.lookup "competitionLevel" with
      | some (DetailVal.str s) =>
        .ok (setKey "competitionLevel" (DetailVal.str (toLowerStr (trimSpace s))) details)
      | _ => .ok details
  else
    .ok details

/-- Result of `CreateAchievementService`. -/
structure CreateResult where
  contents : ContentDB
  refs : RefDB
  outcome : ServiceOutcome
  ops : List StoreOp
deriving Repr, DecidableEq

/-- `CreateAchievementService` (part_005, lines 225-318): resolves the student
(locals cache, else student store), validates and normalizes the request, then
writes the Mongo content and finally the Postgres draft reference.
Infrastructure failures of the two inserts are modelled by the
`contentCreateFails` / `refCreateFails` oracles; the fresh store-assigned ids
are `newMongoId` / `newRefId`. -/
def CreateAchievementService (studentUuidLocal : Option Nat) (userIdLocal : Option Nat)
    (students : List Student) (req : CreateAchievementRequest)
    (store : ContentDB) (db : RefDB) (newMongoId newRefId : String)
    (contentCreateFails refCreateFails : Bool) (now : Nat) : CreateResult :=
  let resolved : List StoreOp × Except ServiceOutcome Nat :=
    match studentUuidLocal with
    | some sid => ([], .ok sid)
    | none =>
      match userIdLocal with
      | none => ([], .error (.forbidden "User tidak valid"))
      | some uid =>
        match students.find? (fun s => s.userId == uid) with
        | none => ([StoreOp.studentRead], .error (.forbidden "mahasiswa tidak memiliki student_id"))
        | some st => ([StoreOp.studentRead], .ok st.id)
  match resolved.2 with
  | .error out => ⟨store, db, out, resolved.1⟩
  | .ok studentUUID =>
    let atype := toLowerStr (trimSpace req.achievementType)
    let title := trimSpace req.title
    let desc := trimSpace req.description
    if atype == "" || title == "" || desc == "" then
      ⟨store, db, .badRequest "achievement_type, title, dan description wajib diisi", resolved.1⟩
    else
      match normalizeDetails atype req.details with
      | .error e => ⟨store, db, .badRequest e, resolved.1⟩
      | .ok details =>
        let req2 : CreateAchievementRequest :=
          { achievementType := atype, title := title, description := desc, details := details }
        if contentCreateFails then
          ⟨store, db, .serverError "Gagal menyimpan achievement", resolved.1 ++ [.contentWrite]⟩
        else
          let cres := MongoRepo.Create store studentUUID req2 newMongoId now
          if refCreateFails then
            ⟨cres.1, db, .serverError "Gagal membuat reference", resolved.1 ++ [.contentWrite, .refWrite]⟩
          else
            let rres := RefRepo.CreateDraft db studentUUID cres.2 newRefId now
            ⟨cres.1, rres.1, .ok "Achievement berhasil dibuat",
             resolved.1 ++ [.contentWrite, .refWrite]⟩

/-- Request context for the scope resolver (`allowedStatusesByRole`). -/
structure ScopeEnv where
  studentUuidLocal : Option Nat
  lecturerUuidLocal : Option Nat
  userIdLocal : Option Nat
  students : List Student
  lecturers : List Lecturer
deriving Repr, DecidableEq

/-- `allowedStatusesByRole` (part_005, lines 156-210): per-role allowed status
set plus optional owning-student filter and optional advisor filter. -/
def allowedStatusesByRole (env : ScopeEnv) (roleName : String) :
    Except String (List String × Option Nat × Option Nat) :=
  let roleName := toLowerStr (trimSpace roleName)
  if roleName == "admin" then
    .ok ([AchievementStatusDraft, AchievementStatusSubmitted, AchievementStatusVerified,
          AchievementStatusRejected, AchievementStatusDeleted], none, none)
  else if roleName == "mahasiswa" then
    match env.studentUuidLocal with
    | some sid =>
      .ok ([AchievementStatusDraft, AchievementStatusSubmitted, AchievementStatusVerified,
            AchievementStatusRejected], some sid, none)
    | none =>
      match env.userIdLocal with
      | none => .error "mahasiswa tidak memiliki student_id"
      | some uid =>
        match env.students.find? (fun s => s.userId == uid) with
        | none => .error "mahasiswa tidak memiliki student_id"
        | some st =>
          .ok ([AchievementStatusDraft, AchievementStatusSubmitted, AchievementStatusVerified,
                AchievementStatusRejected], some st.id, none)
  else if roleName == "dosen wali" then
    match env.userIdLocal with
    | none => .error "user tidak valid"
    | some uid =>
      match env.lecturerUuidLocal with
      | some lid => .ok ([AchievementStatusSubmitted], none, some lid)
      | none =>
        match env.lecturers.find? (fun l => l.userId == uid) with
        | none => .error "dosen wali tidak ditemukan"
        | some lect => .ok ([AchievementStatusSubmitted], none, some lect.id)
  else if roleName == "staff" then
    .ok ([AchievementStatusVerified, AchievementStatusRejected], none, none)
  else
    .error "role tidak diperbolehkan"

/-- `model.AchievementWithReference`: a listed row. The Go zero-value
`Achievement` used when the content fetch missed is modelled as `none`. -/
structure AchievementWithReference where
  achievement : Option Achievement
  reference : AchievementReference
deriving Repr, DecidableEq

/-- The in-memory join of `GetAchievementsService` (part_005, lines 733-750):
every reference row is kept; rows whose content id misses the fetched map get
an absent content payload. -/
def combineRefsWithContent (refs : List AchievementReference) (achievements : ContentDB) :
    List AchievementWithReference :=
  refs.map (fun r =>
    match achievements.find? (fun a => a.id == r.mongoAchievementId) with
    | some a => { achievement := some a, reference := r }
    | none => { achievement := none, reference := r })

/-- The fetch-and-join pipeline of `GetAchievementsService` (part_005, lines
720-750): batch content fetch by the listed rows' content ids, then join. -/
def GetAchievementsCombined (store : ContentDB) (refs : List AchievementReference) :
    List AchievementWithReference :=
  combineRefsWithContent refs (MongoRepo.GetByIDs store (refs.map (fun r => r.mongoAchievementId)))

/-! ## Mutation sequences over the reference store -/

/-- One invocation of a mutating reference-store operation, with its arguments. -/
inductive StoreMutation
  | createDraft (studentID : Nat) (mongoID : String) (newID : String)
  | submit (refID : String) (studentID : Nat)
  | review (refID : String) (status : String) (adminID : Nat) (note : Option String)
  | adminDelete (refID : String) (adminID : Nat)
  | studentDelete (refID : String) (studentID : Nat)
  | hardDelete (refID : String)
deriving Repr, DecidableEq

/-- The four guarded status-transition operations of the store. -/
def StoreMutation.isStatusTransition : StoreMutation → Bool
  | .submit _ _ => true
  | .review _ _ _ _ => true
  | .adminDelete _ _ => true
  | .studentDelete _ _ => true
  | _ => false

/-- The reference-row id a mutation addresses. -/
def mutationTarget : StoreMutation → String
  | .createDraft _ _ nid => nid
  | .submit refID _ => refID
  | .review refID _ _ _ => refID
  | .adminDelete refID _ => refID
  | .studentDelete refID _ => refID
  | .hardDelete refID => refID

/-- The expected from-status guard of a mutation, evaluated on a row. -/
def mutationFromOk : StoreMutation → AchievementReference → Bool
  | .submit _ _, r => r.status == AchievementStatusDraft
  | .review _ _ _ _, r => r.status == AchievementStatusSubmitted
  | .adminDelete _ _, r => r.status != AchievementStatusDeleted
  | .studentDelete _ _, r => r.status == AchievementStatusDraft
  | .createDraft _ _ _, _ => true
  | .hardDelete _, r => r.status == AchievementStatusDeleted

/-- Run one mutation against the reference store. -/
def applyMutation (m : StoreMutation) (now : Nat) (db : RefDB) :
    RefDB × Except String Unit :=
  match m with
  | .createDraft sid mid nid => ((RefRepo.CreateDraft db sid mid nid now).1, .ok ())
  | .submit refID sid => RefRepo.SubmitDraft db refID sid now
  | .review refID status aid note => RefRepo.Review db refID status aid note now
  | .adminDelete refID aid => RefRepo.Delete db refID aid now
  | .studentDelete refID sid => RefRepo.DeleteByStudent db refID sid now
  | .hardDelete refID => RefRepo.HardDelete db refID

/-- Run a sequence of mutations (each with its own clock value). -/
def applyAll (ms : List (StoreMutation × Nat)) (db : RefDB) : RefDB :=
  ms.foldl (fun db p => (applyMutation p.1 p.2 db).1) db

/-- The status-transition graph of spec §4.2. -/
def statusEdge (a b : String) : Bool :=
  (a == AchievementStatusDraft && b == AchievementStatusSubmitted)
    || (a == AchievementStatusSubmitted && b == AchievementStatusVerified)
    || (a == AchievementStatusSubmitted && b == AchievementStatusRejected)
    || (a == AchievementStatusDraft && b == AchievementStatusDeleted)
    || (a != AchievementStatusDeleted && b == AchievementStatusDeleted)

/-- Rejection-note invariant: a note is only present on `rejected` rows and is
never the empty string. -/
def noteInv (db : RefDB) : Prop :=
  ∀ r ∈ db, (r.status ≠ AchievementStatusRejected → r.rejectionNote = none)
    ∧ r.rejectionNote ≠ some ""

/-! ## Sample data used by the witnesses and counterexamples -/

/-- A reference row already in status `verified`. -/
def c1SampleRow : AchievementReference :=
  { id := "r1", studentId := 1, mongoAchievementId := "m1",
    status := AchievementStatusVerified, submittedAt := none, verifiedAt := some 3,
    verifiedBy := some 9, rejectionNote := none, createdAt := 0, updatedAt := 3 }

def c1SampleDb : RefDB := [c1SampleRow]

/-- A reference row in status `submitted`. -/
def c10SampleRow : AchievementReference :=
  { id := "r2", studentId := 4, mongoAchievementId := "m2",
    status := AchievementStatusSubmitted, submittedAt := some 1, verifiedAt := none,
    verifiedBy := none, rejectionNote := none, createdAt := 0, updatedAt := 1 }

def c10SampleDb : RefDB := [c10SampleRow]

/-- A mutation run: create a draft, submit it, reject it with a note. -/
def c9SampleRun : List (StoreMutation × Nat) :=
  [(StoreMutation.createDraft 1 "m1" "r1", 0),
   (StoreMutation.submit "r1" 1, 1),
   (StoreMutation.review "r1" "rejected" 9 (some " x "), 2)]

/-- Scope-resolver context of a logged-in student with cached student UUID 1. -/
def c3SampleEnv : ScopeEnv :=
  { studentUuidLocal := some 1, lecturerUuidLocal := none, userIdLocal := none,
    students := [], lecturers := [] }

/-- A draft row owned by student 1. -/
def c3SampleRow : AchievementReference :=
  { id := "r3", studentId := 1, mongoAchievementId := "m3",
    status := AchievementStatusDraft, submittedAt := none, verifiedAt := none,
    verifiedBy := none, rejectionNote := none, createdAt := 0, updatedAt := 0 }

def c3SampleDb : RefDB := [c3SampleRow]

/-- Review context: an advisor (dosen wali) whose lecturer record is 5, acting
on a submitted row of student 2 whose advisor is lecturer 99. -/
def c2SampleEnv : ReviewEnv :=
  { roleIdLocal := some "role-dw", userIdLocal := some 10,
    roles := [{ id := "role-dw", name := "Dosen Wali" }],
    lecturers := [{ id := 5, userId := 10 }],
    students := [{ id := 2, userId := 20, advisorId := some 99 }] }

def c2SampleRow : AchievementReference :=
  { id := "r4", studentId := 2, mongoAchievementId := "m4",
    status := AchievementStatusSubmitted, submittedAt := some 1, verifiedAt := none,
    verifiedBy := none, rejectionNote := none, createdAt := 0, updatedAt := 1 }

def c2SampleDb : RefDB := [c2SampleRow]

/-- Review context: an admin role resolved from the role store. -/
def c5SampleEnv : ReviewEnv :=
  { roleIdLocal := some "role-1", userIdLocal := some 7,
    roles := [{ id := "role-1", name := "Admin" }], lecturers := [], students := [] }

/-- A create request whose achievement type is blank after trimming. -/
def c5SampleCreateReq : CreateAchievementRequest :=
  { achievementType := "  ", title := "t", description := "d", details := [] }

/-- A soft-deleted reference row whose content id resolves in the sample store. -/
def c6SampleRow : AchievementReference :=
  { id := "r6", studentId := 3, mongoAchievementId := "bbbbbbbbbbbbbbbbbbbbbbbb",
    status := AchievementStatusDeleted, submittedAt := some 1, verifiedAt := some 2,
    verifiedBy := some 9, rejectionNote := none, createdAt := 0, updatedAt := 2 }

def c6SampleDb : RefDB := [c6SampleRow]

def c6SampleContent : Achievement :=
  { id := "bbbbbbbbbbbbbbbbbbbbbbbb", studentId := 3, achievementType := "academic",
    title := "t", description := "d", details := [], createdAt := 0, updatedAt := 0 }

def c6SampleStore : ContentDB := [c6SampleContent]

/-- A valid create request (competition with integer rank). -/
def c7SampleReq : CreateAchievementRequest :=
  { achievementType := "Competition", title := " Juara 1 ", description := "Menang",
    details := [("rank", DetailVal.num 1), ("competitionLevel", DetailVal.str "National")] }

/-- A content document whose id is a well-formed ObjectID hex. -/
def c8SampleAch : Achievement :=
  { id := "aaaaaaaaaaaaaaaaaaaaaaaa", studentId := 1, achievementType := "academic",
    title := "t", description := "d", details := [], createdAt := 0, updatedAt := 0 }

def c8SampleStore : ContentDB := [c8SampleAch]

/-- A reference row pointing at a content id that does not resolve. -/
def c8SampleRef : AchievementReference :=
  { id := "r8", studentId := 1, mongoAchievementId := "missing-content-id",
    status := AchievementStatusSubmitted, submittedAt := some 1, verifiedAt := none,
    verifiedBy := none, rejectionNote := none, createdAt := 0, updatedAt := 1 }

/-! ## Helper lemmas -/

theorem condUpdate_mem {p : AchievementReference → Bool}
    {f : AchievementReference → AchievementReference} {db : RefDB} {r' : AchievementReference}
    (h : r' ∈ db.map (fun r => if p r then f r else r)) :
    r' ∈ db ∨ ∃ r ∈ db, p r = true ∧ r' = f r := by
  obtain ⟨r, hr, he⟩ := List.mem_map.mp h
  by_cases hp : p r = true
  · exact Or.inr ⟨r, hr, hp, by rw [← he, if_pos hp]⟩
  · refine Or.inl ?_
    have : r' = r := by rw [← he, if_neg hp]
    exact this ▸ hr

theorem map_nomatch {p : AchievementReference → Bool}
    {f : AchievementReference → AchievementReference} {db : RefDB}
    (h : ∀ r ∈ db, p r = false) :
    db.map (fun r => if p r then f r else r) = db := by
  calc db.map (fun r => if p r then f r else r)
      = db.map id := List.map_congr_left (fun r hr => by simp [h r hr])
    _ = db := List.map_id db

theorem countP_nomatch {p : AchievementReference → Bool} {db : RefDB}
    (h : ∀ r ∈ db, p r = false) :
    db.countP p = 0 :=
  List.countP_eq_zero.mpr (fun r hr => by simp [h r hr])

theorem mem_insertByCreatedDesc {a r : AchievementReference} {l : List AchievementReference} :
    a ∈ RefRepo.insertByCreatedDesc r l ↔ a = r ∨ a ∈ l := by
  induction l with
  | nil => simp [RefRepo.insertByCreatedDesc]
  | cons x xs ih =>
    simp only [RefRepo.insertByCreatedDesc]
    split
    · simp [List.mem_cons]
    · simp only [List.mem_cons, ih]
      tauto

theorem mem_sortByCreatedDesc {a : AchievementReference} {l : List AchievementReference} :
    a ∈ RefRepo.sortByCreatedDesc l ↔ a ∈ l := by
  induction l with
  | nil => simp [RefRepo.sortByCreatedDesc]
  | cons x xs ih =>
    simp only [RefRepo.sortByCreatedDesc, List.foldr] at ih ⊢
    rw [mem_insertByCreatedDesc]
    simp [ih]

/-- Every row returned by `ListByStatuses` comes from the table and satisfies
the query's WHERE clause. -/
theorem listByStatuses_mem {db : RefDB} {statuses : List String}
    {studentID advisorID : Option Nat} {students : List Student} {page limit : Int}
    {r : AchievementReference}
    (h : r ∈ (RefRepo.ListByStatuses db statuses studentID advisorID students page limit).1) :
    r ∈ db ∧ RefRepo.listByStatusesPred statuses studentID advisorID students r = true := by
  simp only [RefRepo.ListByStatuses] at h
  have h1 := List.mem_of_mem_drop (List.mem_of_mem_take h)
  have h2 := mem_sortByCreatedDesc.mp h1
  exact List.mem_filter.mp h2

/-- `resolveRoleName` only ever performs role-store reads. -/
theorem resolveRoleName_ops_sub (ril : Option String) (roles : List Role) :
    ∀ op ∈ (resolveRoleName ril roles).1, op = StoreOp.roleRead := by
  cases ril with
  | none => simp [resolveRoleName]
  | some rid =>
    simp only [resolveRoleName]
    split
    · simp
    · cases roles.find? (fun r => r.id == rid) <;> simp

/-- The value `Review` stores as the rejection note is never the empty string. -/
theorem reviewNoteValue_ne_empty (s : String) (note : Option String) :
    RefRepo.reviewNoteValue s note ≠ some "" := by
  unfold RefRepo.reviewNoteValue
  split
  · cases note with
    | none => simp
    | some n =>
      by_cases ht : (trimSpace n == "") = true
      · simp [ht]
      · have hf : (trimSpace n == "") = false := by
          cases hb : (trimSpace n == "") with
          | false => rfl
          | true => exact absurd hb ht
        simp only [hf]
        simp only [Bool.false_eq_true, if_false]
        intro hcon
        exact (beq_eq_false_iff_ne.mp hf) (Option.some.injEq _ _ ▸ hcon)
  · simp

/-- One store mutation preserves the rejection-note invariant. -/
theorem noteInv_step (m : StoreMutation) (now : Nat) (db : RefDB) (h : noteInv db) :
    noteInv (applyMutation m now db).1 := by
  cases m with
  | createDraft sid mid nid =>
    intro r hr
    simp only [applyMutation, RefRepo.CreateDraft] at hr
    rcases List.mem_append.mp hr with h1 | h1
    · exact h r h1
    · simp only [List.mem_singleton] at h1
      subst h1
      exact ⟨fun _ => rfl, by simp⟩
  | submit refID sid =>
    intro r hr
    simp only [applyMutation, RefRepo.SubmitDraft, updateWhere] at hr
    rcases condUpdate_mem hr with h1 | ⟨r0, hr0, hp, he⟩
    · exact h r h1
    · subst he
      have h0 := h r0 hr0
      have hst : r0.status = AchievementStatusDraft :=
        beq_iff_eq.mp ((Bool.and_eq_true _ _).mp hp).2
      have hnone : r0.rejectionNote = none := h0.1 (by rw [hst]; decide)
      exact ⟨fun _ => hnone, by simp [hnone]⟩
  | review refID status aid note =>
    intro r hr
    simp only [applyMutation, RefRepo.Review, updateWhere] at hr
    cases hv : (toLowerStr (trimSpace status) != AchievementStatusVerified &&
        toLowerStr (trimSpace status) != AchievementStatusRejected) with
    | true =>
      rw [hv] at hr
      exact h r hr
    | false =>
      rw [hv] at hr
      have hr2 : r ∈ db.map (fun r0 =>
          if (r0.id == refID && r0.status == AchievementStatusSubmitted) = true then
            { r0 with status := toLowerStr (trimSpace status), verifiedAt := some now,
                      verifiedBy := some aid,
                      rejectionNote :=
                        RefRepo.reviewNoteValue (toLowerStr (trimSpace status)) note,
                      updatedAt := now }
          else r0) := hr
      rcases condUpdate_mem hr2 with h1 | ⟨r0, _, _, he⟩
      · exact h r h1
      · subst he
        refine ⟨?_, reviewNoteValue_ne_empty _ _⟩
        intro hne
        have hne2 : toLowerStr (trimSpace status) ≠ AchievementStatusRejected := hne
        simp [RefRepo.reviewNoteValue, hne2]
  | adminDelete refID aid =>
    intro r hr
    simp only [applyMutation, RefRepo.Delete, updateWhere] at hr
    rcases condUpdate_mem hr with h1 | ⟨r0, _, _, he⟩
    · exact h r h1
    · subst he
      exact ⟨fun _ => rfl, by simp⟩
  | studentDelete refID sid =>
    intro r hr
    simp only [applyMutation, RefRepo.DeleteByStudent, updateWhere] at hr
    rcases condUpdate_mem hr with h1 | ⟨r0, _, _, he⟩
    · exact h r h1
    · subst he
      exact ⟨fun _ => rfl, by simp⟩
  | hardDelete refID =>
    intro r hr
    simp only [applyMutation, RefRepo.HardDelete] at hr
    exact h r (List.mem_filter.mp hr).1

/-- A whole mutation run preserves the rejection-note invariant. -/
theorem noteInv_applyAll (ms : List (StoreMutation × Nat)) (db : RefDB) (h : noteInv db) :
    noteInv (applyAll ms db) := by
  induction ms generalizing db with
  | nil => simpa [applyAll] using h
  | cons p rest ih =>
    simpa [applyAll] using ih _ (noteInv_step p.1 p.2 db h)

/-! ## Claim theorems -/

/-- C1: every mutating store operation (SubmitDraft, Review, admin Delete,
student DeleteByStudent) changes a row's status only along an edge of the
transition graph; on a row whose current status does not match the operation's
expected from-status, the operation reports the guard-failure error and the
table is unchanged. -/
theorem c1_guarded_transitions (m : StoreMutation) (hm : m.isStatusTransition = true)
    (now : Nat) (db : RefDB) :
    (∀ r' ∈ (applyMutation m now db).1,
        r' ∈ db ∨ ∃ r ∈ db, r'.id = r.id ∧ statusEdge r.status r'.status = true)
    ∧ ((db.map (fun r => r.id)).Nodup →
        ∀ r ∈ db, r.id = mutationTarget m → mutationFromOk m r = false →
          (applyMutation m now db).1 = db
            ∧ ∃ msg, (applyMutation m now db).2 = Except.error msg) := by
  cases m with
  | createDraft sid mid nid => simp [StoreMutation.isStatusTransition] at hm
  | hardDelete refID => simp [StoreMutation.isStatusTransition] at hm
  | submit refID sid =>
    constructor
    · intro r' hr'
      simp only [applyMutation, RefRepo.SubmitDraft, updateWhere] at hr'
      rcases condUpdate_mem hr' with h | ⟨r, hr, hp, he⟩
      · exact Or.inl h
      · refine Or.inr ⟨r, hr, by rw [he], ?_⟩
        have hst : r.status = AchievementStatusDraft := by
          have := (Bool.and_eq_true _ _).mp hp
          exact beq_iff_eq.mp this.2
        rw [he, hst]
        show statusEdge AchievementStatusDraft AchievementStatusSubmitted = true
        decide
    · intro hnd r hrmem hid hfrom
      simp only [mutationFromOk] at hfrom
      simp only [mutationTarget] at hid
      have hall : ∀ r₂ ∈ db,
          (r₂.id == refID && r₂.studentId == sid && r₂.status == AchievementStatusDraft)
            = false := by
        intro r₂ h₂
        by_cases hq : r₂.id = refID
        · have : r₂ = r := List.inj_on_of_nodup_map hnd h₂ hrmem (by rw [hq, hid])
          subst this
          simp [hfrom]
        · simp [hq]
      simp only [applyMutation, RefRepo.SubmitDraft, updateWhere]
      rw [map_nomatch hall, countP_nomatch hall]
      exact ⟨rfl, _, rfl⟩
  | review refID status aid note =>
    constructor
    · intro r' hr'
      simp only [applyMutation, RefRepo.Review, updateWhere] at hr'
      cases hv : (toLowerStr (trimSpace status) != AchievementStatusVerified &&
          toLowerStr (trimSpace status) != AchievementStatusRejected) with
      | true =>
        rw [hv] at hr'
        exact Or.inl hr'
      | false =>
        rw [hv] at hr'
        have hr'2 : r' ∈ db.map (fun r =>
            if (r.id == refID && r.status == AchievementStatusSubmitted) = true then
              { r with status := toLowerStr (trimSpace status), verifiedAt := some now,
                       verifiedBy := some aid,
                       rejectionNote :=
                         RefRepo.reviewNoteValue (toLowerStr (trimSpace status)) note,
                       updatedAt := now }
            else r) := hr'
        rcases condUpdate_mem hr'2 with h | ⟨r, hr, hp, he⟩
        · exact Or.inl h
        · refine Or.inr ⟨r, hr, by rw [he], ?_⟩
          have hst : r.status = AchievementStatusSubmitted := by
            have := (Bool.and_eq_true _ _).mp hp
            exact beq_iff_eq.mp this.2
          have hvr : toLowerStr (trimSpace status) = AchievementStatusVerified
              ∨ toLowerStr (trimSpace status) = AchievementStatusRejected := by
            rcases Bool.and_eq_false_iff.mp hv with h1 | h1
            · exact Or.inl (by simpa using h1)
            · exact Or.inr (by simpa using h1)
          rw [he, hst]
          rcases hvr with h1 | h1 <;> rw [h1]
          · show statusEdge AchievementStatusSubmitted AchievementStatusVerified = true
            decide
          · show statusEdge AchievementStatusSubmitted AchievementStatusRejected = true
            decide
    · intro hnd r hrmem hid hfrom
      simp only [mutationFromOk] at hfrom
      simp only [mutationTarget] at hid
      simp only [applyMutation, RefRepo.Review, updateWhere]
      cases hv : (toLowerStr (trimSpace status) != AchievementStatusVerified &&
          toLowerStr (trimSpace status) != AchievementStatusRejected) with
      | true =>
        exact ⟨rfl, _, rfl⟩
      | false =>
        have hall : ∀ r₂ ∈ db,
            (r₂.id == refID && r₂.status == AchievementStatusSubmitted) = false := by
          intro r₂ h₂
          by_cases hq : r₂.id = refID
          · have : r₂ = r := List.inj_on_of_nodup_map hnd h₂ hrmem (by rw [hq, hid])
            subst this
            simp [hfrom]
          · simp [hq]
        rw [map_nomatch hall, countP_nomatch hall]
        exact ⟨rfl, _, rfl⟩
  | adminDelete refID aid =>
    constructor
    · intro r' hr'
      simp only [applyMutation, RefRepo.Delete, updateWhere] at hr'
      rcases condUpdate_mem hr' with h | ⟨r, hr, hp, he⟩
      · exact Or.inl h
      · refine Or.inr ⟨r, hr, by rw [he], ?_⟩
        have hst : (r.status != AchievementStatusDeleted) = true :=
          ((Bool.and_eq_true _ _).mp hp).2
        rw [he]
        show statusEdge r.status AchievementStatusDeleted = true
        simp [statusEdge, hst]
    · intro hnd r hrmem hid hfrom
      simp only [mutationFromOk] at hfrom
      simp only [mutationTarget] at hid
      have hall : ∀ r₂ ∈ db,
          (r₂.id == refID && r₂.status != AchievementStatusDeleted) = false := by
        intro r₂ h₂
        by_cases hq : r₂.id = refID
        · have : r₂ = r := List.inj_on_of_nodup_map hnd h₂ hrmem (by rw [hq, hid])
          subst this
          simp [hfrom]
        · simp [hq]
      simp only [applyMutation, RefRepo.Delete, updateWhere]
      rw [map_nomatch hall, countP_nomatch hall]
      exact ⟨rfl, _, rfl⟩
  | studentDelete refID sid =>
    constructor
    · intro r' hr'
      simp only [applyMutation, RefRepo.DeleteByStudent, updateWhere] at hr'
      rcases condUpdate_mem hr' with h | ⟨r, hr, hp, he⟩
      · exact Or.inl h
      · refine Or.inr ⟨r, hr, by rw [he], ?_⟩
        have hst : r.status = AchievementStatusDraft := by
          have := (Bool.and_eq_true _ _).mp hp
          exact beq_iff_eq.mp this.2
        rw [he, hst]
        show statusEdge AchievementStatusDraft AchievementStatusDeleted = true
        decide
    · intro hnd r hrmem hid hfrom
      simp only [mutationFromOk] at hfrom
      simp only [mutationTarget] at hid
      have hall : ∀ r₂ ∈ db,
          (r₂.id == refID && r₂.studentId == sid && r₂.status == AchievementStatusDraft)
            = false := by
        intro r₂ h₂
        by_cases hq : r₂.id = refID
        · have : r₂ = r := List.inj_on_of_nodup_map hnd h₂ hrmem (by rw [hq, hid])
          subst this
          simp [hfrom]
        · simp [hq]
      simp only [applyMutation, RefRepo.DeleteByStudent, updateWhere]
      rw [map_nomatch hall, countP_nomatch hall]
      exact ⟨rfl, _, rfl⟩

/-- Witness for C1: submitting a row that is already `verified` fails with the
guard error and leaves the table unchanged. -/
theorem c1_guarded_transitions_witness :
    (applyMutation (StoreMutation.submit "r1" 1) 5 c1SampleDb).1 = c1SampleDb
    ∧ ∃ msg, (applyMutation (StoreMutation.submit "r1" 1) 5 c1SampleDb).2
        = Except.error msg :=
  (c1_guarded_transitions (StoreMutation.submit "r1" 1) (by decide) 5 c1SampleDb).2
    (by decide) c1SampleRow (by decide) (by decide) (by decide)

/-- C9: after any sequence of store operations starting from a table satisfying
the rejection-note invariant, a row's note is present only in status `rejected`
and never empty; the note stored by a rejecting Review is absent exactly when
the supplied note was nil or whitespace, is the trimmed supplied text when
non-empty, and a verifying Review always stores no note. -/
theorem c9_rejection_note (db : RefDB) (hinv : noteInv db)
    (ms : List (StoreMutation × Nat)) :
    noteInv (applyAll ms db)
    ∧ (∀ note, RefRepo.reviewNoteValue AchievementStatusRejected note = none
        ↔ (note = none ∨ ∃ n, note = some n ∧ trimSpace n = ""))
    ∧ (∀ note n, note = some n → trimSpace n ≠ "" →
        RefRepo.reviewNoteValue AchievementStatusRejected note = some (trimSpace n))
    ∧ (∀ note, RefRepo.reviewNoteValue AchievementStatusVerified note = none) := by
  refine ⟨noteInv_applyAll ms db hinv, ?_, ?_, ?_⟩
  · intro note
    cases note with
    | none => simp [RefRepo.reviewNoteValue]
    | some n =>
      by_cases ht : trimSpace n = ""
      · simp [RefRepo.reviewNoteValue, ht]
      · have hf : (trimSpace n == "") = false := beq_eq_false_iff_ne.mpr ht
        simp [RefRepo.reviewNoteValue, hf, ht]
  · intro note n hn ht
    subst hn
    have hf : (trimSpace n == "") = false := beq_eq_false_iff_ne.mpr ht
    simp [RefRepo.reviewNoteValue, hf]
  · intro note
    unfold RefRepo.reviewNoteValue
    rw [show (AchievementStatusVerified == AchievementStatusRejected) = false from by decide]
    simp

/-- Witness for C9 at a concrete run: create, submit, reject with note " x ". -/
theorem c9_rejection_note_witness :
    noteInv (applyAll c9SampleRun [])
    ∧ (∀ note, RefRepo.reviewNoteValue AchievementStatusRejected note = none
        ↔ (note = none ∨ ∃ n, note = some n ∧ trimSpace n = ""))
    ∧ (∀ note n, note = some n → trimSpace n ≠ "" →
        RefRepo.reviewNoteValue AchievementStatusRejected note = some (trimSpace n))
    ∧ (∀ note, RefRepo.reviewNoteValue AchievementStatusVerified note = none) :=
  c9_rejection_note [] (by simp [noteInv]) c9SampleRun

/-- C10: invoked directly on a `submitted` row with decision `rejected` and a
nil or whitespace-only note, the store-level Review still performs the
submitted→rejected transition and stores no rejection note. -/
theorem c10_store_review_empty_note (db : RefDB) (refID : String) (adminID : Nat)
    (note : Option String) (now : Nat) (r : AchievementReference)
    (hmem : r ∈ db) (hid : r.id = refID) (hst : r.status = AchievementStatusSubmitted)
    (hnote : noteMissing note = true) :
    (RefRepo.Review db refID AchievementStatusRejected adminID note now).2 = Except.ok ()
    ∧ { r with status := AchievementStatusRejected, verifiedAt := some now,
               verifiedBy := some adminID, rejectionNote := none, updatedAt := now }
        ∈ (RefRepo.Review db refID AchievementStatusRejected adminID note now).1 := by
  have hnorm : toLowerStr (trimSpace AchievementStatusRejected) = AchievementStatusRejected := by
    decide
  have hrn : RefRepo.reviewNoteValue (toLowerStr (trimSpace AchievementStatusRejected)) note
      = none := by
    rw [hnorm]
    cases note with
    | none => simp [RefRepo.reviewNoteValue]
    | some n =>
      have ht : (trimSpace n == "") = true := by simpa [noteMissing] using hnote
      simp [RefRepo.reviewNoteValue, ht]
  have hp : (r.id == refID && r.status == AchievementStatusSubmitted) = true := by
    simp [hid, hst]
  have hcount : (db.countP (fun r => r.id == refID && r.status == AchievementStatusSubmitted)
      == 0) = false := by
    have hpos : 0 < db.countP (fun r => r.id == refID && r.status == AchievementStatusSubmitted) :=
      List.countP_pos_iff.mpr ⟨r, hmem, hp⟩
    simp [Nat.pos_iff_ne_zero.mp hpos]
  constructor
  · simp only [RefRepo.Review, updateWhere]
    rw [show (toLowerStr (trimSpace AchievementStatusRejected) != AchievementStatusVerified &&
        toLowerStr (trimSpace AchievementStatusRejected) != AchievementStatusRejected) = false
      from by decide]
    simp [hcount]
  · simp only [RefRepo.Review, updateWhere]
    rw [show (toLowerStr (trimSpace AchievementStatusRejected) != AchievementStatusVerified &&
        toLowerStr (trimSpace AchievementStatusRejected) != AchievementStatusRejected) = false
      from by decide]
    rw [if_neg (by decide)]
    exact List.mem_map.mpr ⟨r, hmem, by rw [if_pos hp, hrn, hnorm]⟩

/-- Witness for C10: Review with a whitespace note succeeds on a submitted row
and stores a NULL note. -/
theorem c10_store_review_empty_note_witness :
    (RefRepo.Review c10SampleDb "r2" AchievementStatusRejected 9 (some "   ") 7).2
        = Except.ok ()
    ∧ { c10SampleRow with status := AchievementStatusRejected, verifiedAt := some 7,
                          verifiedBy := some 9, rejectionNote := none, updatedAt := 7 }
      ∈ (RefRepo.Review c10SampleDb "r2" AchievementStatusRejected 9 (some "   ") 7).1 :=
  c10_store_review_empty_note c10SampleDb "r2" 9 (some "   ") 7 c10SampleRow
    (by decide) (by decide) (by decide) (by decide)

/-- C3: under the owning-student (mahasiswa) scope the allowed status set is
exactly draft/submitted/verified/rejected, and every row returned by the
listing belongs to the resolved student and is not `deleted`. -/
theorem c3_student_scope (env : ScopeEnv) (db : RefDB) (students : List Student)
    (page limit : Int) (sts : List String) (sf af : Option Nat) (sid : Nat)
    (h : allowedStatusesByRole env "mahasiswa" = .ok (sts, sf, af))
    (hsf : sf = some sid) :
    sts = [AchievementStatusDraft, AchievementStatusSubmitted, AchievementStatusVerified,
           AchievementStatusRejected]
    ∧ ∀ r ∈ (RefRepo.ListByStatuses db sts sf af students page limit).1,
        r.studentId = sid ∧ r.status ≠ AchievementStatusDeleted := by
  have hshape : sts = [AchievementStatusDraft, AchievementStatusSubmitted,
      AchievementStatusVerified, AchievementStatusRejected] := by
    simp only [allowedStatusesByRole] at h
    rw [show toLowerStr (trimSpace "mahasiswa") = "mahasiswa" from by decide] at h
    rw [if_neg (by decide), if_pos (by decide)] at h
    cases hsl : env.studentUuidLocal with
    | some s0 =>
      simp only [hsl] at h
      simp at h
      exact h.1.symm
    | none =>
      simp only [hsl] at h
      cases hul : env.userIdLocal with
      | none => simp only [hul] at h; simp at h
      | some uid =>
        simp only [hul] at h
        cases hfs : env.students.find? (fun s => s.userId == uid) with
        | none => simp only [hfs] at h; simp at h
        | some st =>
          simp only [hfs] at h
          simp at h
          exact h.1.symm
  refine ⟨hshape, ?_⟩
  intro r hr
  obtain ⟨_, hpred⟩ := listByStatuses_mem hr
  simp only [RefRepo.listByStatusesPred, hsf, hshape] at hpred
  have h1 := (Bool.and_eq_true _ _).mp hpred
  have h2 := (Bool.and_eq_true _ _).mp h1.1
  have hsid : r.studentId = sid := beq_iff_eq.mp h2.2
  have hmemst : r.status ∈ [AchievementStatusDraft, AchievementStatusSubmitted,
      AchievementStatusVerified, AchievementStatusRejected] := by
    have := h2.1
    simpa using this
  refine ⟨hsid, ?_⟩
  rcases List.mem_cons.mp hmemst with h3 | h3
  · rw [h3]; decide
  rcases List.mem_cons.mp h3 with h4 | h4
  · rw [h4]; decide
  rcases List.mem_cons.mp h4 with h5 | h5
  · rw [h5]; decide
  rcases List.mem_cons.mp h5 with h6 | h6
  · rw [h6]; decide
  · simp at h6

/-- Witness for C3: the sample student's draft row listed under its own scope. -/
theorem c3_student_scope_witness :
    c3SampleRow.studentId = 1 ∧ c3SampleRow.status ≠ AchievementStatusDeleted :=
  (c3_student_scope c3SampleEnv c3SampleDb [] 1 10
      [AchievementStatusDraft, AchievementStatusSubmitted, AchievementStatusVerified,
       AchievementStatusRejected] (some 1) none 1 rfl rfl).2
    c3SampleRow (by decide)

/-- C8: the batch content fetch returns exactly the stored documents whose id
was requested and well-formed (silently omitting the rest, without error), and
the listing join keeps every reference row, pairing rows whose content fetch
missed with an absent payload. -/
theorem c8_partial_content (store : ContentDB) (ids : List String)
    (refs : List AchievementReference) :
    (∀ a, a ∈ MongoRepo.GetByIDs store ids
        ↔ a ∈ store ∧ a.id ∈ ids ∧ isValidObjectId a.id = true)
    ∧ (GetAchievementsCombined store refs).map (fun c => c.reference) = refs
    ∧ (∀ c ∈ GetAchievementsCombined store refs,
        (c.achievement = none ↔
          (MongoRepo.GetByIDs store (refs.map (fun r => r.mongoAchievementId))).find?
            (fun a => a.id == c.reference.mongoAchievementId) = none)) := by
  refine ⟨?_, ?_, ?_⟩
  · intro a
    simp only [MongoRepo.GetByIDs]
    by_cases hie : ids.isEmpty = true
    · rw [if_pos hie]
      have : ids = [] := List.isEmpty_iff.mp hie
      subst this
      simp
    · rw [if_neg hie]
      by_cases hoe : (ids.filter isValidObjectId).isEmpty = true
      · rw [if_pos hoe]
        have hnil : ids.filter isValidObjectId = [] := List.isEmpty_iff.mp hoe
        constructor
        · intro hmem
          exact absurd hmem (by simp)
        · rintro ⟨_, hin, hval⟩
          have : a.id ∈ ids.filter isValidObjectId := List.mem_filter.mpr ⟨hin, hval⟩
          rw [hnil] at this
          exact absurd this (by simp)
      · rw [if_neg hoe]
        constructor
        · intro hmem
          obtain ⟨hs, hc⟩ := List.mem_filter.mp hmem
          have : a.id ∈ ids.filter isValidObjectId := by simpa using hc
          obtain ⟨hin, hval⟩ := List.mem_filter.mp this
          exact ⟨hs, hin, hval⟩
        · rintro ⟨hs, hin, hval⟩
          refine List.mem_filter.mpr ⟨hs, ?_⟩
          simpa using List.mem_filter.mpr ⟨hin, hval⟩
  · simp only [GetAchievementsCombined, combineRefsWithContent]
    rw [List.map_map]
    have : ∀ r ∈ refs, ((fun (c : AchievementWithReference) => c.reference) ∘ (fun r =>
        match (MongoRepo.GetByIDs store (refs.map (fun r => r.mongoAchievementId))).find?
            (fun a => a.id == r.mongoAchievementId) with
        | some a => { achievement := some a, reference := r }
        | none => { achievement := none, reference := r })) r = id r := by
      intro r _
      simp only [Function.comp, id]
      cases (MongoRepo.GetByIDs store (refs.map (fun r => r.mongoAchievementId))).find?
          (fun a => a.id == r.mongoAchievementId) <;> rfl
    rw [List.map_congr_left this, List.map_id]
  · intro c hc
    simp only [GetAchievementsCombined, combineRefsWithContent] at hc
    obtain ⟨r, _, he⟩ := List.mem_map.mp hc
    cases hf : (MongoRepo.GetByIDs store (refs.map (fun r => r.mongoAchievementId))).find?
        (fun a => a.id == r.mongoAchievementId) with
    | some a =>
      rw [hf] at he
      subst he
      constructor
      · intro hcon
        exact absurd hcon (by simp)
      · intro hcon
        rw [show ({ achievement := some a, reference := r } :
            AchievementWithReference).reference = r from rfl] at hcon
        rw [hf] at hcon
        exact absurd hcon (by simp)
    | none =>
      rw [hf] at he
      subst he
      constructor
      · intro _
        simpa using hf
      · intro _
        rfl

/-- Witness for C8: a resolvable id is fetched; an unresolvable reference is
still listed with an absent payload. -/
theorem c8_partial_content_witness :
    c8SampleAch ∈ MongoRepo.GetByIDs c8SampleStore ["aaaaaaaaaaaaaaaaaaaaaaaa"]
    ∧ (GetAchievementsCombined c8SampleStore [c8SampleRef]).map (fun c => c.reference)
        = [c8SampleRef] :=
  ⟨((c8_partial_content c8SampleStore ["aaaaaaaaaaaaaaaaaaaaaaaa"] []).1 c8SampleAch).mpr
      (by decide),
   (c8_partial_content c8SampleStore [] [c8SampleRef]).2.1⟩

/-- C6: hard delete succeeds only when the reference is already `deleted`; when
it proceeds it deletes the content first and the reference row second (trace
`[refRead, contentDelete, refWrite]`), and a content-delete failure leaves the
reference table untouched with no reference write in the trace. -/
theorem c6_hard_delete (refIDParam : String) (db : RefDB) (store : ContentDB)
    (ref : AchievementReference)
    (hrid : trimSpace refIDParam ≠ "")
    (href : RefRepo.GetByID db (trimSpace refIDParam) = .ok ref) :
    (∀ msg, (HardDeleteAchievementService refIDParam db store).outcome = .ok msg →
        ref.status = AchievementStatusDeleted)
    ∧ (ref.status ≠ AchievementStatusDeleted →
        (HardDeleteAchievementService refIDParam db store).refs = db
        ∧ (HardDeleteAchievementService refIDParam db store).contents = store
        ∧ (HardDeleteAchievementService refIDParam db store).ops = [StoreOp.refRead])
    ∧ (∀ e, (MongoRepo.Delete store ref.mongoAchievementId).2 = .error e →
        (HardDeleteAchievementService refIDParam db store).refs = db
        ∧ StoreOp.refWrite ∉ (HardDeleteAchievementService refIDParam db store).ops)
    ∧ (ref.status = AchievementStatusDeleted →
        (MongoRepo.Delete store ref.mongoAchievementId).2 = .ok () →
        (HardDeleteAchievementService refIDParam db store).ops
            = [StoreOp.refRead, StoreOp.contentDelete, StoreOp.refWrite]
        ∧ (HardDeleteAchievementService refIDParam db store).contents
            = (MongoRepo.Delete store ref.mongoAchievementId).1
        ∧ (HardDeleteAchievementService refIDParam db store).refs
            = (RefRepo.HardDelete db (trimSpace refIDParam)).1) := by
  have hridb : (trimSpace refIDParam == "") = false := beq_eq_false_iff_ne.mpr hrid
  by_cases hstat : ref.status = AchievementStatusDeleted
  · have hstb : (ref.status != AchievementStatusDeleted) = false := by simp [hstat]
    cases hm : (MongoRepo.Delete store ref.mongoAchievementId).2 with
    | error e =>
      have hsvc : HardDeleteAchievementService refIDParam db store =
          ⟨db, (MongoRepo.Delete store ref.mongoAchievementId).1, mapRefError e,
           [StoreOp.refRead, StoreOp.contentDelete]⟩ := by
        simp [HardDeleteAchievementService, hridb, href, hstb, hm]
      refine ⟨fun _ _ => hstat, fun hc => absurd hstat hc, ?_, ?_⟩
      · intro e2 _
        refine ⟨by rw [hsvc], ?_⟩
        rw [hsvc]
        show StoreOp.refWrite ∉ [StoreOp.refRead, StoreOp.contentDelete]
        decide
      · intro _ hok
        exact absurd hok (by simp)
    | ok u =>
      cases u
      cases hh : (RefRepo.HardDelete db (trimSpace refIDParam)).2 with
      | error e2 =>
        have hsvc : HardDeleteAchievementService refIDParam db store =
            ⟨(RefRepo.HardDelete db (trimSpace refIDParam)).1,
             (MongoRepo.Delete store ref.mongoAchievementId).1, mapRefError e2,
             [StoreOp.refRead, StoreOp.contentDelete, StoreOp.refWrite]⟩ := by
          simp [HardDeleteAchievementService, hridb, href, hstb, hm, hh]
        refine ⟨fun _ _ => hstat, fun hc => absurd hstat hc, ?_, ?_⟩
        · intro e3 he3
          exact absurd he3 (by simp)
        · intro _ _
          rw [hsvc]
          exact ⟨rfl, rfl, rfl⟩
      | ok u2 =>
        cases u2
        have hsvc : HardDeleteAchievementService refIDParam db store =
            ⟨(RefRepo.HardDelete db (trimSpace refIDParam)).1,
             (MongoRepo.Delete store ref.mongoAchievementId).1,
             .ok "Achievement dihapus permanen",
             [StoreOp.refRead, StoreOp.contentDelete, StoreOp.refWrite]⟩ := by
          simp [HardDeleteAchievementService, hridb, href, hstb, hm, hh]
        refine ⟨fun _ _ => hstat, fun hc => absurd hstat hc, ?_, ?_⟩
        · intro e3 he3
          exact absurd he3 (by simp)
        · intro _ _
          rw [hsvc]
          exact ⟨rfl, rfl, rfl⟩
  · have hstb : (ref.status != AchievementStatusDeleted) = true := by simp [hstat]
    have hsvc : HardDeleteAchievementService refIDParam db store =
        ⟨db, store, .badRequest "Hard delete hanya boleh untuk status deleted",
         [StoreOp.refRead]⟩ := by
      simp [HardDeleteAchievementService, hridb, href, hstb]
    refine ⟨?_, fun _ => by rw [hsvc]; exact ⟨rfl, rfl, rfl⟩, ?_, fun hc _ => absurd hc hstat⟩
    · intro msg hmsg
      rw [hsvc] at hmsg
      exact absurd hmsg (by simp)
    · intro e _
      refine ⟨by rw [hsvc], ?_⟩
      rw [hsvc]
      show StoreOp.refWrite ∉ [StoreOp.refRead]
      decide

/-- Witness for C6: on the sample soft-deleted row the hard delete performs the
content delete first and the reference delete second. -/
theorem c6_hard_delete_witness :
    (HardDeleteAchievementService "r6" c6SampleDb c6SampleStore).ops
        = [StoreOp.refRead, StoreOp.contentDelete, StoreOp.refWrite]
    ∧ (HardDeleteAchievementService "r6" c6SampleDb c6SampleStore).contents
        = (MongoRepo.Delete c6SampleStore c6SampleRow.mongoAchievementId).1
    ∧ (HardDeleteAchievementService "r6" c6SampleDb c6SampleStore).refs
        = (RefRepo.HardDelete c6SampleDb (trimSpace "r6")).1 :=
  (c6_hard_delete "r6" c6SampleDb c6SampleStore c6SampleRow (by decide) rfl).2.2.2
    rfl rfl

/-- C7: on a valid create request the content write precedes the reference
creation (trace `[contentWrite, refWrite]` whether or not the reference insert
succeeds), and when the reference creation fails after the content write the
service returns an error, the reference table is unchanged, the new content
document stays stored, and no compensating content delete appears in the
trace. -/
theorem c7_create_orphan (store : ContentDB) (db : RefDB) (sid : Nat)
    (uid : Option Nat) (students : List Student) (req : CreateAchievementRequest)
    (mid rid : String) (now : Nat) (d : List (String × DetailVal))
    (hty : (toLowerStr (trimSpace req.achievementType) == "") = false)
    (hti : (trimSpace req.title == "") = false)
    (hde : (trimSpace req.description == "") = false)
    (hnd : normalizeDetails (toLowerStr (trimSpace req.achievementType)) req.details
        = .ok d) :
    (CreateAchievementService (some sid) uid students req store db mid rid false true now).ops
        = [StoreOp.contentWrite, StoreOp.refWrite]
    ∧ (CreateAchievementService (some sid) uid students req store db mid rid false false now).ops
        = [StoreOp.contentWrite, StoreOp.refWrite]
    ∧ (CreateAchievementService (some sid) uid students req store db mid rid false true now).outcome
        = .serverError "Gagal membuat reference"
    ∧ (∃ doc,
        (CreateAchievementService (some sid) uid students req store db mid rid false true now).contents
            = store ++ [doc]
        ∧ doc.id = mid)
    ∧ (CreateAchievementService (some sid) uid students req store db mid rid false true now).refs
        = db
    ∧ StoreOp.contentDelete ∉
        (CreateAchievementService (some sid) uid students req store db mid rid false true now).ops := by
  have hsvcF : CreateAchievementService (some sid) uid students req store db mid rid false true now
      = ⟨(MongoRepo.Create store sid
            { achievementType := toLowerStr (trimSpace req.achievementType),
              title := trimSpace req.title, description := trimSpace req.description,
              details := d } mid now).1,
         db, .serverError "Gagal membuat reference",
         [StoreOp.contentWrite, StoreOp.refWrite]⟩ := by
    simp [CreateAchievementService, hty, hti, hde, hnd]
  have hsvcS : CreateAchievementService (some sid) uid students req store db mid rid false false now
      = ⟨(MongoRepo.Create store sid
            { achievementType := toLowerStr (trimSpace req.achievementType),
              title := trimSpace req.title, description := trimSpace req.description,
              details := d } mid now).1,
         (RefRepo.CreateDraft db sid
            (MongoRepo.Create store sid
              { achievementType := toLowerStr (trimSpace req.achievementType),
                title := trimSpace req.title, description := trimSpace req.description,
                details := d } mid now).2 rid now).1,
         .ok "Achievement berhasil dibuat",
         [StoreOp.contentWrite, StoreOp.refWrite]⟩ := by
    simp [CreateAchievementService, hty, hti, hde, hnd]
  refine ⟨by rw [hsvcF], by rw [hsvcS], by rw [hsvcF], ?_, by rw [hsvcF], ?_⟩
  · rw [hsvcF]
    exact ⟨_, rfl, rfl⟩
  · rw [hsvcF]
    show StoreOp.contentDelete ∉ [StoreOp.contentWrite, StoreOp.refWrite]
    decide

/-- Witness for C7 at the sample competition request. -/
theorem c7_create_orphan_witness :
    (CreateAchievementService (some 1) none [] c7SampleReq [] [] "cccccccccccccccccccccccc"
        "r7" false true 4).ops = [StoreOp.contentWrite, StoreOp.refWrite]
    ∧ (CreateAchievementService (some 1) none [] c7SampleReq [] [] "cccccccccccccccccccccccc"
        "r7" false false 4).ops = [StoreOp.contentWrite, StoreOp.refWrite]
    ∧ (CreateAchievementService (some 1) none [] c7SampleReq [] [] "cccccccccccccccccccccccc"
        "r7" false true 4).outcome = .serverError "Gagal membuat reference"
    ∧ (∃ doc,
        (CreateAchievementService (some 1) none [] c7SampleReq [] [] "cccccccccccccccccccccccc"
            "r7" false true 4).contents = [] ++ [doc]
        ∧ doc.id = "cccccccccccccccccccccccc")
    ∧ (CreateAchievementService (some 1) none [] c7SampleReq [] [] "cccccccccccccccccccccccc"
        "r7" false true 4).refs = []
    ∧ StoreOp.contentDelete ∉
        (CreateAchievementService (some 1) none [] c7SampleReq [] [] "cccccccccccccccccccccccc"
            "r7" false true 4).ops :=
  c7_create_orphan [] [] 1 none [] c7SampleReq "cccccccccccccccccccccccc" "r7" 4
    [("rank", DetailVal.num 1), ("competitionLevel", DetailVal.str "national")]
    (by decide) (by decide) (by decide) rfl

/-- C2: a valid review request by an actor resolved to the advisor (dosen wali)
role, against a submitted row whose owning student's advisor is not that
actor's lecturer record, returns a forbidden outcome, never calls the guarded
store Review, and leaves the reference table (status, verified_at, verified_by,
rejection_note) unchanged. -/
theorem c2_advisor_scope_forbidden (env : ReviewEnv) (refIDParam : String)
    (req : UpdateAchievementStatusRequest) (db : RefDB) (now : Nat)
    (actorID : Nat) (ref : AchievementReference) (lect : Lecturer) (st : Student)
    (hrid : trimSpace refIDParam ≠ "")
    (hrole : (resolveRoleName env.roleIdLocal env.roles).2 = .ok "dosen wali")
    (huser : env.userIdLocal = some actorID)
    (hval : toLowerStr (trimSpace req.status) = AchievementStatusVerified
        ∨ (toLowerStr (trimSpace req.status) = AchievementStatusRejected
            ∧ noteMissing req.rejectionNote = false))
    (href : RefRepo.GetByID db (trimSpace refIDParam) = .ok ref)
    (hsub : ref.status = AchievementStatusSubmitted)
    (hlect : env.lecturers.find? (fun l => l.userId == actorID) = some lect)
    (hst : env.students.find? (fun s => s.id == ref.studentId) = some st)
    (hmis : st.advisorId ≠ some lect.id) :
    (ReviewAchievementService env refIDParam req db now).outcome
        = .forbidden "Tidak berhak memproses mahasiswa ini"
    ∧ (ReviewAchievementService env refIDParam req db now).refs = db
    ∧ StoreOp.refWrite ∉ (ReviewAchievementService env refIDParam req db now).ops := by
  have hridb : (trimSpace refIDParam == "") = false := beq_eq_false_iff_ne.mpr hrid
  have hsubb : (ref.status != AchievementStatusSubmitted) = false := by simp [hsub]
  have hmisb : (st.advisorId != some lect.id) = true := by simp [hmis]
  have hcheck1 : (toLowerStr (trimSpace req.status) == AchievementStatusRejected &&
      noteMissing req.rejectionNote) = false := by
    rcases hval with h | ⟨h, hn⟩
    · rw [h]
      rw [show (AchievementStatusVerified == AchievementStatusRejected) = false from by decide]
      simp
    · simp [hn]
  have hcheck2 : (toLowerStr (trimSpace req.status) != AchievementStatusVerified &&
      toLowerStr (trimSpace req.status) != AchievementStatusRejected) = false := by
    rcases hval with h | ⟨h, _⟩ <;> rw [h] <;> simp
  have hsvc : ReviewAchievementService env refIDParam req db now =
      ⟨db, .forbidden "Tidak berhak memproses mahasiswa ini",
       (resolveRoleName env.roleIdLocal env.roles).1
         ++ [StoreOp.refRead, StoreOp.lecturerRead, StoreOp.studentRead]⟩ := by
    simp [ReviewAchievementService, hridb, hrole, huser, hcheck1, hcheck2, href, hsubb,
      hlect, hst, hmisb,
      show ("dosen wali" == "admin") = false from by decide,
      show ("dosen wali" == "dosen wali") = true from by decide]
  refine ⟨by rw [hsvc], by rw [hsvc], ?_⟩
  rw [hsvc]
  intro hmem
  rcases List.mem_append.mp hmem with hmem1 | hmem1
  · exact absurd (resolveRoleName_ops_sub _ _ _ hmem1) (by decide)
  · exact absurd hmem1 (by decide)

/-- Witness for C2: the sample advisor (lecturer 5) is not student 2's advisor
(lecturer 99), so the verified decision on the submitted row is forbidden. -/
theorem c2_advisor_scope_forbidden_witness :
    (ReviewAchievementService c2SampleEnv "r4"
        { status := "verified", rejectionNote := none } c2SampleDb 3).outcome
      = .forbidden "Tidak berhak memproses mahasiswa ini"
    ∧ (ReviewAchievementService c2SampleEnv "r4"
        { status := "verified", rejectionNote := none } c2SampleDb 3).refs = c2SampleDb
    ∧ StoreOp.refWrite ∉ (ReviewAchievementService c2SampleEnv "r4"
        { status := "verified", rejectionNote := none } c2SampleDb 3).ops :=
  c2_advisor_scope_forbidden c2SampleEnv "r4" { status := "verified", rejectionNote := none }
    c2SampleDb 3 10 c2SampleRow { id := 5, userId := 10 }
    { id := 2, userId := 20, advisorId := some 99 }
    (by decide) rfl rfl (Or.inl (by decide)) rfl (by decide) rfl rfl (by decide)

/-- C4: a review request with decision `rejected` and a nil or whitespace-only
note, issued under a resolved admin or advisor role, yields a validation
(bad-request) outcome; the reference table is unchanged and the trace contains
no write to any store. -/
theorem c4_reject_requires_note (env : ReviewEnv) (refIDParam : String)
    (req : UpdateAchievementStatusRequest) (db : RefDB) (now : Nat)
    (roleName : String) (actorID : Nat)
    (hrole : (resolveRoleName env.roleIdLocal env.roles).2 = .ok roleName)
    (hr : roleName = "admin" ∨ roleName = "dosen wali")
    (huser : env.userIdLocal = some actorID)
    (hstatus : toLowerStr (trimSpace req.status) = AchievementStatusRejected)
    (hnote : noteMissing req.rejectionNote = true) :
    (∃ msg, (ReviewAchievementService env refIDParam req db now).outcome = .badRequest msg)
    ∧ (ReviewAchievementService env refIDParam req db now).refs = db
    ∧ ∀ op ∈ (ReviewAchievementService env refIDParam req db now).ops,
        op ≠ StoreOp.refWrite ∧ op ≠ StoreOp.contentWrite ∧ op ≠ StoreOp.contentDelete := by
  by_cases hrid : trimSpace refIDParam = ""
  · have hsvc : ReviewAchievementService env refIDParam req db now =
        ⟨db, .badRequest "ID reference harus diisi", []⟩ := by
      simp [ReviewAchievementService, hrid]
    refine ⟨⟨_, by rw [hsvc]⟩, by rw [hsvc], ?_⟩
    rw [hsvc]
    intro op hop
    exact absurd hop (by simp)
  · have hridb : (trimSpace refIDParam == "") = false := beq_eq_false_iff_ne.mpr hrid
    have hcheck1 : (toLowerStr (trimSpace req.status) == AchievementStatusRejected &&
        noteMissing req.rejectionNote) = true := by simp [hstatus, hnote]
    have htail : ∀ op ∈ (resolveRoleName env.roleIdLocal env.roles).1,
        op ≠ StoreOp.refWrite ∧ op ≠ StoreOp.contentWrite ∧ op ≠ StoreOp.contentDelete := by
      intro op hop
      have := resolveRoleName_ops_sub _ _ op hop
      subst this
      exact ⟨by decide, by decide, by decide⟩
    rcases hr with hr | hr <;> subst hr
    · have hsvc : ReviewAchievementService env refIDParam req db now =
          ⟨db, .badRequest "rejection_note wajib diisi jika status rejected",
           (resolveRoleName env.roleIdLocal env.roles).1⟩ := by
        simp [ReviewAchievementService, hridb, hrole, huser, hcheck1,
          show ("admin" == "admin") = true from by decide]
      refine ⟨⟨_, by rw [hsvc]⟩, by rw [hsvc], ?_⟩
      rw [hsvc]
      exact htail
    · have hsvc : ReviewAchievementService env refIDParam req db now =
          ⟨db, .badRequest "rejection_note wajib diisi jika status rejected",
           (resolveRoleName env.roleIdLocal env.roles).1⟩ := by
        simp [ReviewAchievementService, hridb, hrole, huser, hcheck1,
          show ("dosen wali" == "admin") = false from by decide,
          show ("dosen wali" == "dosen wali") = true from by decide]
      refine ⟨⟨_, by rw [hsvc]⟩, by rw [hsvc], ?_⟩
      rw [hsvc]
      exact htail

/-- Witness for C4: the sample admin rejecting with no note gets a validation
failure and no reference write. -/
theorem c4_reject_requires_note_witness :
    (∃ msg, (ReviewAchievementService c5SampleEnv "r9"
        { status := "Rejected", rejectionNote := some "   " } [] 2).outcome
          = .badRequest msg)
    ∧ (ReviewAchievementService c5SampleEnv "r9"
        { status := "Rejected", rejectionNote := some "   " } [] 2).refs = []
    ∧ ∀ op ∈ (ReviewAchievementService c5SampleEnv "r9"
        { status := "Rejected", rejectionNote := some "   " } [] 2).ops,
        op ≠ StoreOp.refWrite ∧ op ≠ StoreOp.contentWrite ∧ op ≠ StoreOp.contentDelete :=
  c4_reject_requires_note c5SampleEnv "r9"
    { status := "Rejected", rejectionNote := some "   " } [] 2 "admin" 7
    rfl (Or.inl rfl) rfl (by decide) (by decide)

/-- Counterexample to C5 as stated: on an invalid review request (reject with
no note) the coordinator performs a store operation — the role-store read done
by `resolveRoleName` — before returning the validation failure, so "no store
operation (read or write) is performed before the validation error" fails. -/
theorem c5_store_read_before_validation_counterexample :
    (ReviewAchievementService c5SampleEnv "ref-1"
        { status := "rejected", rejectionNote := none } [] 0).outcome
      = .badRequest "rejection_note wajib diisi jika status rejected"
    ∧ (ReviewAchievementService c5SampleEnv "ref-1"
        { status := "rejected", rejectionNote := none } [] 0).ops
      = [StoreOp.roleRead] :=
  ⟨rfl, rfl⟩

/-- C5 (amended): on invalid input the coordinator returns the validation
failure before any content-store or reference-store operation — the only store
accesses that may precede it are the resolver reads (role resolution for
Review; the review trace is role reads only, and the create trace is empty when
the student UUID is cached), and no achievement store is read or written. -/
theorem c5_validation_before_achievement_stores
    (env : ReviewEnv) (refIDParam : String) (req : UpdateAchievementStatusRequest)
    (db : RefDB) (now : Nat) (roleName : String) (actorID : Nat)
    (store : ContentDB) (creq : CreateAchievementRequest) (sid : Nat) (uid : Option Nat)
    (students : List Student) (mid rid : String) (cf rf : Bool) (cnow : Nat)
    (hrole : (resolveRoleName env.roleIdLocal env.roles).2 = .ok roleName)
    (hr : roleName = "admin" ∨ roleName = "dosen wali")
    (huser : env.userIdLocal = some actorID)
    (hbad : (toLowerStr (trimSpace req.status) = AchievementStatusRejected
        ∧ noteMissing req.rejectionNote = true)
      ∨ (toLowerStr (trimSpace req.status) ≠ AchievementStatusVerified
        ∧ toLowerStr (trimSpace req.status) ≠ AchievementStatusRejected))
    (hcbad : toLowerStr (trimSpace creq.achievementType) = "" ∨ trimSpace creq.title = ""
        ∨ trimSpace creq.description = ""
        ∨ ∃ e, normalizeDetails (toLowerStr (trimSpace creq.achievementType)) creq.details
            = .error e) :
    ((∃ msg, (ReviewAchievementService env refIDParam req db now).outcome = .badRequest msg)
      ∧ (ReviewAchievementService env refIDParam req db now).refs = db
      ∧ ∀ op ∈ (ReviewAchievementService env refIDParam req db now).ops,
          op = StoreOp.roleRead)
    ∧ ((∃ msg,
          (CreateAchievementService (some sid) uid students creq store db mid rid cf rf cnow).outcome
            = .badRequest msg)
      ∧ (CreateAchievementService (some sid) uid students creq store db mid rid cf rf cnow).contents
          = store
      ∧ (CreateAchievementService (some sid) uid students creq store db mid rid cf rf cnow).refs
          = db
      ∧ (CreateAchievementService (some sid) uid students creq store db mid rid cf rf cnow).ops
          = []) := by
  constructor
  · by_cases hrid : trimSpace refIDParam = ""
    · have hsvc : ReviewAchievementService env refIDParam req db now =
          ⟨db, .badRequest "ID reference harus diisi", []⟩ := by
        simp [ReviewAchievementService, hrid]
      refine ⟨⟨_, by rw [hsvc]⟩, by rw [hsvc], ?_⟩
      rw [hsvc]
      intro op hop
      exact absurd hop (by simp)
    · have hridb : (trimSpace refIDParam == "") = false := beq_eq_false_iff_ne.mpr hrid
      rcases hbad with ⟨hstatus, hnote⟩ | ⟨hnv, hnr⟩
      · have hcheck1 : (toLowerStr (trimSpace req.status) == AchievementStatusRejected &&
            noteMissing req.rejectionNote) = true := by simp [hstatus, hnote]
        rcases hr with hr | hr <;> subst hr
        · have hsvc : ReviewAchievementService env refIDParam req db now =
              ⟨db, .badRequest "rejection_note wajib diisi jika status rejected",
               (resolveRoleName env.roleIdLocal env.roles).1⟩ := by
            simp [ReviewAchievementService, hridb, hrole, huser, hcheck1,
              show ("admin" == "admin") = true from by decide]
          refine ⟨⟨_, by rw [hsvc]⟩, by rw [hsvc], ?_⟩
          rw [hsvc]
          exact resolveRoleName_ops_sub _ _
        · have hsvc : ReviewAchievementService env refIDParam req db now =
              ⟨db, .badRequest "rejection_note wajib diisi jika status rejected",
               (resolveRoleName env.roleIdLocal env.roles).1⟩ := by
            simp [ReviewAchievementService, hridb, hrole, huser, hcheck1,
              show ("dosen wali" == "admin") = false from by decide,
              show ("dosen wali" == "dosen wali") = true from by decide]
          refine ⟨⟨_, by rw [hsvc]⟩, by rw [hsvc], ?_⟩
          rw [hsvc]
          exact resolveRoleName_ops_sub _ _
      · have hcheck1 : (toLowerStr (trimSpace req.status) == AchievementStatusRejected &&
            noteMissing req.rejectionNote) = false := by
          simp [beq_eq_false_iff_ne.mpr hnr]
        have hcheck2 : (toLowerStr (trimSpace req.status) != AchievementStatusVerified &&
            toLowerStr (trimSpace req.status) != AchievementStatusRejected) = true := by
          simp [hnv, hnr]
        rcases hr with hr | hr <;> subst hr
        · have hsvc : ReviewAchievementService env refIDParam req db now =
              ⟨db, .badRequest "Status harus verified/rejected",
               (resolveRoleName env.roleIdLocal env.roles).1⟩ := by
            simp [ReviewAchievementService, hridb, hrole, huser, hcheck1, hcheck2,
              show ("admin" == "admin") = true from by decide]
          refine ⟨⟨_, by rw [hsvc]⟩, by rw [hsvc], ?_⟩
          rw [hsvc]
          exact resolveRoleName_ops_sub _ _
        · have hsvc : ReviewAchievementService env refIDParam req db now =
              ⟨db, .badRequest "Status harus verified/rejected",
               (resolveRoleName env.roleIdLocal env.roles).1⟩ := by
            simp [ReviewAchievementService, hridb, hrole, huser, hcheck1, hcheck2,
              show ("dosen wali" == "admin") = false from by decide,
              show ("dosen wali" == "dosen wali") = true from by decide]
          refine ⟨⟨_, by rw [hsvc]⟩, by rw [hsvc], ?_⟩
          rw [hsvc]
          exact resolveRoleName_ops_sub _ _
  · by_cases hc1 : (toLowerStr (trimSpace creq.achievementType) == ""
        || trimSpace creq.title == "" || trimSpace creq.description == "") = true
    · have hsvc : CreateAchievementService (some sid) uid students creq store db mid rid cf rf cnow
          = ⟨store, db, .badRequest "achievement_type, title, dan description wajib diisi",
             []⟩ := by
        simp [CreateAchievementService, hc1]
      exact ⟨⟨_, by rw [hsvc]⟩, by rw [hsvc], by rw [hsvc], by rw [hsvc]⟩
    · have hc1f : (toLowerStr (trimSpace creq.achievementType) == ""
          || trimSpace creq.title == "" || trimSpace creq.description == "") = false := by
        cases hb : (toLowerStr (trimSpace creq.achievementType) == ""
            || trimSpace creq.title == "" || trimSpace creq.description == "") with
        | false => rfl
        | true => exact absurd hb hc1
      have hnd : ∃ e,
          normalizeDetails (toLowerStr (trimSpace creq.achievementType)) creq.details
            = .error e := by
        rcases hcbad with h | h | h | h
        · exfalso
          rw [h] at hc1f
          simp at hc1f
        · exfalso
          rw [h] at hc1f
          simp at hc1f
        · exfalso
          rw [h] at hc1f
          simp at hc1f
        · exact h
      obtain ⟨e, he⟩ := hnd
      have hsvc : CreateAchievementService (some sid) uid students creq store db mid rid cf rf cnow
          = ⟨store, db, .badRequest e, []⟩ := by
        simp [CreateAchievementService, hc1f, he]
      exact ⟨⟨_, by rw [hsvc]⟩, by rw [hsvc], by rw [hsvc], by rw [hsvc]⟩

/-- Witness for the amended C5: reject-without-note review plus a blank-type
create both fail validation with no achievement-store access. -/
theorem c5_validation_before_achievement_stores_witness :
    ((∃ msg, (ReviewAchievementService c5SampleEnv "ref-2"
        { status := "rejected", rejectionNote := some " " } [] 1).outcome
          = .badRequest msg)
      ∧ (ReviewAchievementService c5SampleEnv "ref-2"
          { status := "rejected", rejectionNote := some " " } [] 1).refs = []
      ∧ ∀ op ∈ (ReviewAchievementService c5SampleEnv "ref-2"
          { status := "rejected", rejectionNote := some " " } [] 1).ops,
          op = StoreOp.roleRead)
    ∧ ((∃ msg, (CreateAchievementService (some 1) none [] c5SampleCreateReq [] [] "m" "r"
          false false 1).outcome = .badRequest msg)
      ∧ (CreateAchievementService (some 1) none [] c5SampleCreateReq [] [] "m" "r"
          false false 1).contents = []
      ∧ (CreateAchievementService (some 1) none [] c5SampleCreateReq [] [] "m" "r"
          false false 1).refs = []
      ∧ (CreateAchievementService (some 1) none [] c5SampleCreateReq [] [] "m" "r"
          false false 1).ops = []) :=
  c5_validation_before_achievement_stores c5SampleEnv "ref-2"
    { status := "rejected", rejectionNote := some " " } [] 1 "admin" 7 []
    c5SampleCreateReq 1 none [] "m" "r" false false 1
    rfl (Or.inl rfl) rfl (Or.inl ⟨by decide, by decide⟩) (Or.inl (by decide))

end SchoolAchievement
